import Mathlib

/-
  Verification development for the "Will it rain on my parade" NASA 2025
  repository.  The repository ships the frontend sources and extensive
  documentation; the backend (statistics engine, series validator, analysis
  service, forecast model, model cache) is described by the specification and
  its test transcripts but its source file (backend/simple_app.py) is not part
  of the source tree here.  Components marked "Modelled from the spec" are
  therefore faithful executable models of the specification text; the frontend
  definitions towards the end are translated directly from the source code
  embedded in CHART_AND_THEME_FEATURES.md.

  Real-valued quantities are modelled with exact rationals (ℚ); totality of
  every definition over ℚ is the model of "no NaN is produced".
-/

namespace ParadeWeather

/-! ## Statistics Engine (modelled from the spec, §4.3) -/

/-- Modelled from the spec: the Statistics Engine sorts the sample before
computing percentiles ("linear interpolation between order statistics").
The backend source is not in the tree; sorting is modelled with insertion
sort over ≤. -/
def sortedSample (xs : List ℚ) : List ℚ :=
  List.insertionSort (· ≤ ·) xs

/-- Modelled from the spec: the fractional rank of percentile `p` in a sample
of size `n` for the standard linear-interpolation percentile definition. -/
def rankOf (n : ℕ) (p : ℚ) : ℚ :=
  p * ((n : ℚ) - 1) / 100

/-- Lower order-statistic index used by linear interpolation. -/
def lowerIndex (n : ℕ) (p : ℚ) : ℕ :=
  (Int.floor (rankOf n p)).toNat

/-- Upper order-statistic index used by linear interpolation (clamped to the
last element). -/
def upperIndex (n : ℕ) (p : ℚ) : ℕ :=
  min (lowerIndex n p + 1) (n - 1)

/-- Modelled from the spec: linear interpolation between the two order
statistics surrounding the fractional rank.  `s` is the sorted sample. -/
def interpolate (s : List ℚ) (p : ℚ) : ℚ :=
  s.getD (lowerIndex s.length p) 0 +
    (rankOf s.length p - ((lowerIndex s.length p : ℕ) : ℚ)) *
      (s.getD (upperIndex s.length p) 0 - s.getD (lowerIndex s.length p) 0)

/-- Modelled from the spec: percentile threshold of a raw sample, computed by
sorting it and linearly interpolating between order statistics. -/
def pThreshold (xs : List ℚ) (p : ℚ) : ℚ :=
  interpolate (sortedSample xs) p

/-- Modelled from the spec: the median of the sample (midpoint of the two
middle order statistics, the standard definition). -/
def medianOf (xs : List ℚ) : ℚ :=
  ((sortedSample xs).getD (((sortedSample xs).length - 1) / 2) 0 +
    (sortedSample xs).getD ((sortedSample xs).length / 2) 0) / 2

/-- Modelled from the spec: number of sample values at or above a threshold
(ties at the boundary count as exceeding — inclusive comparison). -/
def exceedCount (xs : List ℚ) (t : ℚ) : ℕ :=
  (xs.filter (fun v => decide (t ≤ v))).length

/-- Number of sample values strictly below a threshold. -/
def belowCount (xs : List ℚ) (t : ℚ) : ℕ :=
  (xs.filter (fun v => decide (v < t))).length

/-- Modelled from the spec: number of sample values at or below a threshold
(cold-direction buckets use the inclusive ≤ comparison). -/
def belowEqCount (xs : List ℚ) (t : ℚ) : ℕ :=
  (xs.filter (fun v => decide (v ≤ t))).length

/-- Modelled from the spec: exceedance probability as the exact empirical
percentage of years whose value is at or above the threshold. -/
def exceedProbability (xs : List ℚ) (t : ℚ) : ℚ :=
  100 * (exceedCount xs t : ℚ) / (xs.length : ℚ)

/-- Percentage of years whose value is strictly below the threshold. -/
def strictlyBelowPercentage (xs : List ℚ) (t : ℚ) : ℚ :=
  100 * (belowCount xs t : ℚ) / (xs.length : ℚ)

/-- Modelled from the spec: cold-direction probability: percentage of years
whose value is at or below the threshold. -/
def belowEqProbability (xs : List ℚ) (t : ℚ) : ℚ :=
  100 * (belowEqCount xs t : ℚ) / (xs.length : ℚ)

/-- Arithmetic mean of the sample. -/
def meanOf (xs : List ℚ) : ℚ :=
  xs.sum / (xs.length : ℚ)

/-- Smallest sample value (first order statistic). -/
def minOf (xs : List ℚ) : ℚ :=
  (sortedSample xs).getD 0 0

/-- Largest sample value (last order statistic). -/
def maxOf (xs : List ℚ) : ℚ :=
  (sortedSample xs).getD (xs.length - 1) 0

/-- Modelled from the spec: probabilities are serialized as percentages with
one-decimal precision (round half up to one decimal place). -/
def roundTo1 (x : ℚ) : ℚ :=
  ((Int.floor (10 * x + 1 / 2) : ℤ) : ℚ) / 10

/-! ### Basic facts about the percentile machinery -/

theorem sortedSample_sorted (xs : List ℚ) :
    List.Sorted (· ≤ ·) (sortedSample xs) :=
  List.sorted_insertionSort _ xs

theorem sortedSample_length (xs : List ℚ) :
    (sortedSample xs).length = xs.length :=
  List.length_insertionSort _ xs

theorem mem_sortedSample {xs : List ℚ} {v : ℚ} :
    v ∈ sortedSample xs ↔ v ∈ xs :=
  List.mem_insertionSort _

theorem getD_of_lt (s : List ℚ) {i : ℕ} (h : i < s.length) :
    s.getD i 0 = s.get ⟨i, h⟩ := by
  simp [List.getD_eq_getElem?_getD, List.getElem?_eq_getElem h, List.get_eq_getElem]

theorem sorted_getD_le {s : List ℚ} (hs : List.Sorted (· ≤ ·) s)
    {i j : ℕ} (hij : i ≤ j) (hj : j < s.length) :
    s.getD i 0 ≤ s.getD j 0 := by
  have hi : i < s.length := lt_of_le_of_lt hij hj
  rw [getD_of_lt s hi, getD_of_lt s hj]
  exact hs.rel_get_of_le hij

theorem rankOf_nonneg {n : ℕ} {p : ℚ} (hn : 1 ≤ n) (hp : 0 ≤ p) :
    0 ≤ rankOf n p := by
  have h1 : (1 : ℚ) ≤ (n : ℚ) := by exact_mod_cast hn
  have : 0 ≤ (n : ℚ) - 1 := by linarith
  unfold rankOf
  positivity

theorem rankOf_le {n : ℕ} {p : ℚ} (hn : 1 ≤ n) (hp1 : p ≤ 100) :
    rankOf n p ≤ (n : ℚ) - 1 := by
  have h1 : (1 : ℚ) ≤ (n : ℚ) := by exact_mod_cast hn
  have hnn : 0 ≤ (n : ℚ) - 1 := by linarith
  unfold rankOf
  rw [div_le_iff₀ (by norm_num : (0 : ℚ) < 100)]
  nlinarith

theorem lowerIndex_cast {n : ℕ} {p : ℚ} (hn : 1 ≤ n) (hp : 0 ≤ p) :
    ((lowerIndex n p : ℕ) : ℚ) = ((Int.floor (rankOf n p) : ℤ) : ℚ) := by
  have h0 : (0 : ℤ) ≤ Int.floor (rankOf n p) :=
    Int.floor_nonneg.mpr (rankOf_nonneg hn hp)
  unfold lowerIndex
  exact_mod_cast congrArg (fun z : ℤ => (z : ℚ)) (Int.toNat_of_nonneg h0)

theorem lowerIndex_le {n : ℕ} {p : ℚ} (hn : 1 ≤ n) (hp1 : p ≤ 100) :
    lowerIndex n p ≤ n - 1 := by
  have hfloor : Int.floor (rankOf n p) ≤ ((n : ℤ) - 1) := by
    have : Int.floor (rankOf n p) ≤ Int.floor ((n : ℚ) - 1) :=
      Int.floor_le_floor (rankOf_le hn hp1)
    calc Int.floor (rankOf n p) ≤ Int.floor ((n : ℚ) - 1) := this
      _ = (n : ℤ) - 1 := by
          rw [show ((n : ℚ) - 1) = (((n : ℤ) - 1 : ℤ) : ℚ) by push_cast; ring]
          exact Int.floor_intCast _
  unfold lowerIndex
  omega

theorem lowerIndex_lt {n : ℕ} {p : ℚ} (hn : 1 ≤ n) (hp1 : p ≤ 100) :
    lowerIndex n p < n :=
  lt_of_le_of_lt (lowerIndex_le hn hp1) (Nat.sub_lt hn Nat.one_pos)

theorem upperIndex_lt {n : ℕ} {p : ℚ} (hn : 1 ≤ n) :
    upperIndex n p < n :=
  lt_of_le_of_lt (min_le_right _ _) (Nat.sub_lt hn Nat.one_pos)

theorem lowerIndex_le_upperIndex {n : ℕ} {p : ℚ} (hn : 1 ≤ n) (hp1 : p ≤ 100) :
    lowerIndex n p ≤ upperIndex n p :=
  le_min (Nat.le_succ _) (lowerIndex_le hn hp1)

theorem fract_nonneg_of_rank {n : ℕ} {p : ℚ} (hn : 1 ≤ n) (hp : 0 ≤ p) :
    0 ≤ rankOf n p - ((lowerIndex n p : ℕ) : ℚ) := by
  rw [lowerIndex_cast hn hp]
  have := Int.floor_le (rankOf n p)
  linarith

theorem fract_le_one_of_rank {n : ℕ} {p : ℚ} (hn : 1 ≤ n) (hp : 0 ≤ p) :
    rankOf n p - ((lowerIndex n p : ℕ) : ℚ) ≤ 1 := by
  rw [lowerIndex_cast hn hp]
  have := Int.lt_floor_add_one (rankOf n p)
  linarith

theorem interpolate_ge_lower {s : List ℚ} {p : ℚ}
    (hs : List.Sorted (· ≤ ·) s) (hn : 1 ≤ s.length)
    (hp0 : 0 ≤ p) (hp1 : p ≤ 100) :
    s.getD (lowerIndex s.length p) 0 ≤ interpolate s p := by
  have hvl : s.getD (lowerIndex s.length p) 0 ≤ s.getD (upperIndex s.length p) 0 :=
    sorted_getD_le hs (lowerIndex_le_upperIndex hn hp1) (upperIndex_lt hn)
  have ht0 := fract_nonneg_of_rank (n := s.length) (p := p) hn hp0
  unfold interpolate
  nlinarith

theorem interpolate_le_upper {s : List ℚ} {p : ℚ}
    (hs : List.Sorted (· ≤ ·) s) (hn : 1 ≤ s.length)
    (hp0 : 0 ≤ p) (hp1 : p ≤ 100) :
    interpolate s p ≤ s.getD (upperIndex s.length p) 0 := by
  have hvl : s.getD (lowerIndex s.length p) 0 ≤ s.getD (upperIndex s.length p) 0 :=
    sorted_getD_le hs (lowerIndex_le_upperIndex hn hp1) (upperIndex_lt hn)
  have ht1 := fract_le_one_of_rank (n := s.length) (p := p) hn hp0
  unfold interpolate
  nlinarith

theorem rankOf_mono {n : ℕ} {p q : ℚ} (hn : 1 ≤ n) (hpq : p ≤ q) :
    rankOf n p ≤ rankOf n q := by
  have h1 : (1 : ℚ) ≤ (n : ℚ) := by exact_mod_cast hn
  have hnn : 0 ≤ (n : ℚ) - 1 := by linarith
  unfold rankOf
  have := mul_le_mul_of_nonneg_right hpq hnn
  linarith

theorem lowerIndex_mono {n : ℕ} {p q : ℚ} (hn : 1 ≤ n) (hpq : p ≤ q) :
    lowerIndex n p ≤ lowerIndex n q := by
  unfold lowerIndex
  exact Int.toNat_le_toNat (Int.floor_le_floor (rankOf_mono hn hpq))

theorem interpolate_mono {s : List ℚ} {p q : ℚ}
    (hs : List.Sorted (· ≤ ·) s) (hn : 1 ≤ s.length)
    (hp0 : 0 ≤ p) (hpq : p ≤ q) (hq1 : q ≤ 100) :
    interpolate s p ≤ interpolate s q := by
  have hq0 : 0 ≤ q := le_trans hp0 hpq
  have hp1 : p ≤ 100 := le_trans hpq hq1
  rcases Nat.lt_or_ge (lowerIndex s.length p) (lowerIndex s.length q) with hlt | hge
  · -- the two ranks lie in different segments: chain through order statistics
    have h1 : interpolate s p ≤ s.getD (upperIndex s.length p) 0 :=
      interpolate_le_upper hs hn hp0 hp1
    have hup : upperIndex s.length p ≤ lowerIndex s.length q :=
      le_trans (min_le_left _ _) hlt
    have h2 : s.getD (upperIndex s.length p) 0 ≤ s.getD (lowerIndex s.length q) 0 :=
      sorted_getD_le hs hup (lowerIndex_lt hn hq1)
    have h3 : s.getD (lowerIndex s.length q) 0 ≤ interpolate s q :=
      interpolate_ge_lower hs hn hq0 hq1
    linarith
  · -- same segment: the interpolant is affine with nonnegative slope
    have heq : lowerIndex s.length q = lowerIndex s.length p :=
      le_antisymm hge (lowerIndex_mono hn hpq)
    have hvl : s.getD (lowerIndex s.length p) 0 ≤ s.getD (upperIndex s.length p) 0 :=
      sorted_getD_le hs (lowerIndex_le_upperIndex hn hp1) (upperIndex_lt hn)
    have hr : rankOf s.length p ≤ rankOf s.length q := rankOf_mono hn hpq
    have hu : upperIndex s.length q = upperIndex s.length p := by
      unfold upperIndex
      rw [heq]
    have key : (rankOf s.length p - ((lowerIndex s.length p : ℕ) : ℚ)) *
        (s.getD (upperIndex s.length p) 0 - s.getD (lowerIndex s.length p) 0) ≤
        (rankOf s.length q - ((lowerIndex s.length p : ℕ) : ℚ)) *
        (s.getD (upperIndex s.length p) 0 - s.getD (lowerIndex s.length p) 0) :=
      mul_le_mul_of_nonneg_right (by linarith) (by linarith)
    unfold interpolate
    rw [heq, hu]
    linarith

theorem interpolate_fifty (s : List ℚ) (hn : 1 ≤ s.length) :
    (s.getD ((s.length - 1) / 2) 0 + s.getD (s.length / 2) 0) / 2 =
      interpolate s 50 := by
  rcases Nat.even_or_odd s.length with he | ho
  · obtain ⟨m, hm⟩ := he
    obtain ⟨k, hk⟩ : ∃ k, s.length = 2 * k + 2 := ⟨m - 1, by omega⟩
    have hrank : rankOf s.length 50 = (k : ℚ) + 1 / 2 := by
      rw [hk]; unfold rankOf; push_cast; ring
    have hfloor : Int.floor (rankOf s.length 50) = (k : ℤ) := by
      rw [hrank, Int.floor_eq_iff]
      constructor
      · push_cast; linarith
      · push_cast; linarith
    have hlow : lowerIndex s.length 50 = k := by
      unfold lowerIndex; rw [hfloor]; exact Int.toNat_natCast k
    have hup : upperIndex s.length 50 = k + 1 := by
      unfold upperIndex; rw [hlow, hk]; omega
    have hi1 : (s.length - 1) / 2 = k := by omega
    have hi2 : s.length / 2 = k + 1 := by omega
    unfold interpolate
    rw [hrank, hlow, hup, hi1, hi2]
    ring
  · obtain ⟨k, hk⟩ := ho
    have hrank : rankOf s.length 50 = (k : ℚ) := by
      rw [hk]; unfold rankOf; push_cast; ring
    have hfloor : Int.floor (rankOf s.length 50) = (k : ℤ) := by
      rw [hrank]; exact Int.floor_natCast k
    have hlow : lowerIndex s.length 50 = k := by
      unfold lowerIndex; rw [hfloor]; exact Int.toNat_natCast k
    have hi1 : (s.length - 1) / 2 = k := by omega
    have hi2 : s.length / 2 = k := by omega
    unfold interpolate
    rw [hrank, hlow, hi1, hi2]
    ring

theorem medianOf_eq_pThreshold (xs : List ℚ) (hn : 1 ≤ xs.length) :
    medianOf xs = pThreshold xs 50 := by
  have h : 1 ≤ (sortedSample xs).length := by
    rw [sortedSample_length]; exact hn
  unfold medianOf pThreshold
  exact interpolate_fifty (sortedSample xs) h

theorem interpolate_const {s : List ℚ} {c : ℚ} {p : ℚ} (hc : ∀ v ∈ s, v = c)
    (hn : 1 ≤ s.length) (hp1 : p ≤ 100) :
    interpolate s p = c := by
  have hl : s.getD (lowerIndex s.length p) 0 = c := by
    rw [getD_of_lt s (lowerIndex_lt hn hp1)]
    exact hc _ (List.get_mem s _ _)
  have hu : s.getD (upperIndex s.length p) 0 = c := by
    rw [getD_of_lt s (upperIndex_lt hn)]
    exact hc _ (List.get_mem s _ _)
  unfold interpolate
  rw [hl, hu]
  ring

theorem pThreshold_const {xs : List ℚ} {c : ℚ} {p : ℚ} (hc : ∀ v ∈ xs, v = c)
    (hn : 1 ≤ xs.length) (hp1 : p ≤ 100) :
    pThreshold xs p = c := by
  have hlen : 1 ≤ (sortedSample xs).length := by
    rw [sortedSample_length]; exact hn
  refine interpolate_const ?_ hlen hp1
  intro v hv
  exact hc v (mem_sortedSample.mp hv)

theorem exceedCount_add_belowCount (xs : List ℚ) (t : ℚ) :
    exceedCount xs t + belowCount xs t = xs.length := by
  unfold exceedCount belowCount
  induction xs with
  | nil => rfl
  | cons a l ih =>
    rcases le_or_lt t a with h | h
    · simp [List.filter_cons, h, not_lt.mpr h]
      omega
    · simp [List.filter_cons, h, not_le.mpr h]
      omega

theorem ratio_percentage_bounds {c n : ℕ} (hc : c ≤ n) (hn : 0 < n) :
    0 ≤ 100 * (c : ℚ) / (n : ℚ) ∧ 100 * (c : ℚ) / (n : ℚ) ≤ 100 := by
  have hn' : (0 : ℚ) < (n : ℚ) := by exact_mod_cast hn
  have hc' : (c : ℚ) ≤ (n : ℚ) := by exact_mod_cast hc
  constructor
  · positivity
  · rw [div_le_iff₀ hn']
    nlinarith

theorem roundTo1_bounds {x : ℚ} (h0 : 0 ≤ x) (h1 : x ≤ 100) :
    0 ≤ roundTo1 x ∧ roundTo1 x ≤ 100 := by
  have hlb : (0 : ℤ) ≤ Int.floor (10 * x + 1 / 2) :=
    Int.floor_nonneg.mpr (by linarith)
  have hub : Int.floor (10 * x + 1 / 2) ≤ 1000 := by
    have h2 : Int.floor (10 * x + 1 / 2) ≤ Int.floor ((2001 : ℚ) / 2) :=
      Int.floor_le_floor (by linarith)
    have h3 : Int.floor ((2001 : ℚ) / 2) = 1000 := by
      rw [Int.floor_eq_iff]
      constructor <;> norm_num
    omega
  unfold roundTo1
  constructor
  · have : (0 : ℚ) ≤ ((Int.floor (10 * x + 1 / 2) : ℤ) : ℚ) := by exact_mod_cast hlb
    linarith
  · have : ((Int.floor (10 * x + 1 / 2) : ℤ) : ℚ) ≤ 1000 := by exact_mod_cast hub
    linarith

theorem roundTo1_hundred : roundTo1 100 = 100 := by
  have h : Int.floor ((10 : ℚ) * 100 + 1 / 2) = 1000 := by
    rw [Int.floor_eq_iff]
    constructor <;> norm_num
  unfold roundTo1
  rw [h]
  norm_num

theorem roundTo1_zero : roundTo1 0 = 0 := by
  have h : Int.floor ((10 : ℚ) * 0 + 1 / 2) = 0 := by
    rw [Int.floor_eq_iff]
    constructor <;> norm_num
  unfold roundTo1
  rw [h]
  norm_num

theorem filter_eq_self_of_const {xs : List ℚ} {c : ℚ} (hc : ∀ v ∈ xs, v = c)
    {q : ℚ → Bool} (hq : q c = true) :
    xs.filter q = xs := by
  apply List.filter_eq_self.mpr
  intro a ha
  rw [hc a ha]
  exact hq

theorem exceedProbability_const {xs : List ℚ} {c : ℚ} (hc : ∀ v ∈ xs, v = c)
    (hn : xs ≠ []) :
    exceedProbability xs c = 100 := by
  have hfilter : xs.filter (fun v => decide (c ≤ v)) = xs :=
    filter_eq_self_of_const hc (by simp)
  have hn' : (xs.length : ℚ) ≠ 0 := by
    have := List.length_pos.mpr hn
    positivity
  unfold exceedProbability exceedCount
  rw [hfilter]
  field_simp

theorem belowEqProbability_const {xs : List ℚ} {c : ℚ} (hc : ∀ v ∈ xs, v = c)
    (hn : xs ≠ []) :
    belowEqProbability xs c = 100 := by
  have hfilter : xs.filter (fun v => decide (v ≤ c)) = xs :=
    filter_eq_self_of_const hc (by simp)
  have hn' : (xs.length : ℚ) ≠ 0 := by
    have := List.length_pos.mpr hn
    positivity
  unfold belowEqProbability belowEqCount
  rw [hfilter]
  field_simp

/-! ## Error taxonomy and Series Validator (modelled from the spec, §4.2, §7) -/

/-- Modelled from the spec: the four user-facing error kinds of the error
taxonomy (§7). -/
inductive ApiError where
  | invalidRequest (message : String)
  | dataUnavailable (message : String)
  | insufficientData (message : String)
  | modelTrainingFailed (message : String)
deriving DecidableEq, Repr

/-- Modelled from the spec: a raw numeric value from the provider, which can
be non-finite (NaN or ±infinity); finite values carry an exact rational. -/
inductive NumVal where
  | finite (q : ℚ)
  | notFinite
deriving DecidableEq, Repr

/-- Modelled from the spec: one raw daily observation {temperature,
precipitation, wind speed} as delivered by the Data Source Adapter. -/
structure RawObservation where
  temperature_c : NumVal
  precipitation_mm : NumVal
  wind_speed_ms : NumVal
deriving DecidableEq, Repr

/-- Modelled from the spec: a sample is usable when all three values are
finite and physically plausible: temperature in [-90,60] °C, nonnegative
precipitation, nonnegative wind speed. -/
def usable (o : RawObservation) : Bool :=
  match o.temperature_c, o.precipitation_mm, o.wind_speed_ms with
  | NumVal.finite t, NumVal.finite p, NumVal.finite w =>
      decide (-90 ≤ t) && decide (t ≤ 60) && decide (0 ≤ p) && decide (0 ≤ w)
  | _, _, _ => false

/-- Modelled from the spec: minimum day-of-year samples required for
statistics (policy: at least 5 years). -/
def minYearsStatistics : ℕ := 5

/-- Modelled from the spec: the Series Validator discards each offending
sample (not the whole series) and fails with InsufficientData exactly when
fewer than the minimum number of usable samples remain. -/
def validateSeries (series : List RawObservation) (minCount : ℕ) :
    Except ApiError (List RawObservation) :=
  if (series.filter usable).length < minCount then
    Except.error (ApiError.insufficientData
      "Insufficient historical data for this location and date")
  else
    Except.ok (series.filter usable)

theorem validateSeries_ok_length {series : List RawObservation} {m : ℕ}
    {kept : List RawObservation}
    (h : validateSeries series m = Except.ok kept) : m ≤ kept.length := by
  unfold validateSeries at h
  by_cases hc : (series.filter usable).length < m
  · rw [if_pos hc] at h
    cases h
  · rw [if_neg hc] at h
    cases h
    omega

theorem validateSeries_ok_eq {series : List RawObservation} {m : ℕ}
    {kept : List RawObservation}
    (h : validateSeries series m = Except.ok kept) :
    kept = series.filter usable := by
  unfold validateSeries at h
  by_cases hc : (series.filter usable).length < m
  · rw [if_pos hc] at h
    cases h
  · rw [if_neg hc] at h
    cases h
    rfl

/-! ## API payload shapes (field lists from the WeatherAnalysis interface in
CHART_AND_THEME_FEATURES.md) and the Analysis Service (modelled from the
spec, §4.5, §6) -/

/-- Temperature payload: exactly the sixteen fields of the temperature
member of the WeatherAnalysis interface declared by the frontend source. -/
structure TempStats where
  average_temp : ℚ
  median_temp : ℚ
  min_temp : ℚ
  max_temp : ℚ
  data_points : ℕ
  unit : String
  date_analyzed : String
  years_of_data : String
  very_hot_threshold : ℚ
  very_hot_probability : ℚ
  hot_threshold : ℚ
  hot_probability : ℚ
  cold_threshold : ℚ
  cold_probability : ℚ
  very_cold_threshold : ℚ
  very_cold_probability : ℚ
deriving DecidableEq, Repr

/-- Precipitation payload fields, from the WeatherAnalysis interface. -/
structure PrecipStats where
  average_precip : ℚ
  very_wet_threshold : ℚ
  wet_threshold : ℚ
  dry_days_percentage : ℚ
  very_wet_probability : ℚ
  unit : String
  data_points : ℕ
deriving DecidableEq, Repr

/-- Wind payload fields, from the WeatherAnalysis interface. -/
structure WindStats where
  average_wind : ℚ
  very_windy_threshold : ℚ
  windy_threshold : ℚ
  very_windy_probability : ℚ
  unit : String
  data_points : ℕ
deriving DecidableEq, Repr

/-- Metadata block, from the WeatherAnalysis interface. -/
structure AnalysisMetadata where
  latitude : ℚ
  longitude : ℚ
  query_date : String
  data_source : String
  methodology : String
deriving DecidableEq, Repr

/-- Success payload of POST /api/analyze. -/
structure AnalysisResponse where
  temperature : TempStats
  precipitation : PrecipStats
  wind : WindStats
  metadata : AnalysisMetadata
deriving DecidableEq, Repr

/-- Modelled from the spec: the Statistics Engine assembles the temperature
ThresholdStats payload: mean/median/min/max, 90th/75th/25th/10th percentile
thresholds, and the four exceedance probabilities (hot buckets inclusive ≥,
cold buckets inclusive ≤), serialized with one-decimal precision. -/
def analyzeTemperature (xs : List ℚ) (dateAnalyzed yearsOfData : String) :
    TempStats :=
  { average_temp := meanOf xs
    median_temp := medianOf xs
    min_temp := minOf xs
    max_temp := maxOf xs
    data_points := xs.length
    unit := "°C"
    date_analyzed := dateAnalyzed
    years_of_data := yearsOfData
    very_hot_threshold := pThreshold xs 90
    very_hot_probability := roundTo1 (exceedProbability xs (pThreshold xs 90))
    hot_threshold := pThreshold xs 75
    hot_probability := roundTo1 (exceedProbability xs (pThreshold xs 75))
    cold_threshold := pThreshold xs 25
    cold_probability := roundTo1 (belowEqProbability xs (pThreshold xs 25))
    very_cold_threshold := pThreshold xs 10
    very_cold_probability := roundTo1 (belowEqProbability xs (pThreshold xs 10)) }

/-- Modelled from the spec: dry-day epsilon (effectively zero rainfall). -/
def dryEpsilon : ℚ := 1 / 10

/-- Modelled from the spec: precipitation payload. -/
def analyzePrecipitation (xs : List ℚ) : PrecipStats :=
  { average_precip := meanOf xs
    very_wet_threshold := pThreshold xs 90
    wet_threshold := pThreshold xs 75
    dry_days_percentage := roundTo1 (belowEqProbability xs dryEpsilon)
    very_wet_probability := roundTo1 (exceedProbability xs (pThreshold xs 90))
    unit := "mm/day"
    data_points := xs.length }

/-- Modelled from the spec: wind payload. -/
def analyzeWind (xs : List ℚ) : WindStats :=
  { average_wind := meanOf xs
    very_windy_threshold := pThreshold xs 90
    windy_threshold := pThreshold xs 75
    very_windy_probability := roundTo1 (exceedProbability xs (pThreshold xs 90))
    unit := "m/s"
    data_points := xs.length }

/-- Temperature of an observation already known to be usable. -/
def obsTemp (o : RawObservation) : ℚ :=
  match o.temperature_c with
  | NumVal.finite q => q
  | NumVal.notFinite => 0

/-- Precipitation of an observation already known to be usable. -/
def obsPrecip (o : RawObservation) : ℚ :=
  match o.precipitation_mm with
  | NumVal.finite q => q
  | NumVal.notFinite => 0

/-- Wind speed of an observation already known to be usable. -/
def obsWind (o : RawObservation) : ℚ :=
  match o.wind_speed_ms with
  | NumVal.finite q => q
  | NumVal.notFinite => 0

/-- Modelled from the spec: request validation of analyze_historical with a
field-specific message per offending field (§4.5 step 1); the latitude
message is fixed by the spec and the test transcript in TEST_RESULTS.md. -/
def validateHistoricalRequest (lat lng : ℚ) (month day : ℕ) :
    Option ApiError :=
  if ¬(-90 ≤ lat ∧ lat ≤ 90) then
    some (ApiError.invalidRequest "Invalid latitude. Must be between -90 and 90")
  else if ¬(-180 ≤ lng ∧ lng ≤ 180) then
    some (ApiError.invalidRequest "Invalid longitude. Must be between -180 and 180")
  else if ¬(1 ≤ month ∧ month ≤ 12 ∧ 1 ≤ day ∧ day ≤ 31) then
    some (ApiError.invalidRequest "Invalid month or day")
  else
    none

/-- Modelled from the spec: the Analysis Service orchestrator for
analyze_historical (§4.5).  It is parameterized by the Data Source Adapter
`fetch` and instrumented with a counter of adapter invocations (second
component), so that "no network call is attempted" is expressible. -/
def analyzeHistorical (fetch : ℚ → ℚ → Option (List RawObservation))
    (lat lng : ℚ) (month day : ℕ) :
    Except ApiError AnalysisResponse × ℕ :=
  match validateHistoricalRequest lat lng month day with
  | some e => (Except.error e, 0)
  | none =>
    match fetch lat lng with
    | none =>
        (Except.error (ApiError.dataUnavailable
          "Unable to retrieve data from NASA POWER API"), 1)
    | some series =>
      match validateSeries series minYearsStatistics with
      | Except.error e => (Except.error e, 1)
      | Except.ok kept =>
          (Except.ok
            { temperature :=
                analyzeTemperature (kept.map obsTemp)
                  (toString month ++ "/" ++ toString day) "1995-2023"
              precipitation := analyzePrecipitation (kept.map obsPrecip)
              wind := analyzeWind (kept.map obsWind)
              metadata :=
                { latitude := lat
                  longitude := lng
                  query_date := toString month ++ "/" ++ toString day
                  data_source := "NASA POWER API"
                  methodology := "Percentile-based statistical analysis" } }, 1)

/-! ## Forecast Model (modelled from the spec, §4.4) -/

/-- Modelled from the spec: one forecast row, one per forecast day.  Dates
are modelled as epoch-day numbers; day 0 of a forecast is the requested
start date. -/
structure ForecastPoint where
  date : ℕ
  predicted_temperature_c : ℚ
  confidence_lower : ℚ
  confidence_upper : ℚ
  day_offset : ℕ
deriving DecidableEq, Repr

/-- Modelled from the spec: a trained per-coordinate model.  The fitted
scaler-plus-regressor pipeline is abstracted as the function it computes on
a target date, together with the held-out accuracy metric used for the
confidence band. -/
structure TrainedModel where
  predictAt : ℕ → ℚ
  meanAbsoluteError : ℚ
  trainingSampleCount : ℕ

/-- Modelled from the spec: the tunable widening factor applied to the
confidence band as day_offset grows. -/
def bandWidening : ℚ := 1 / 10

/-- Modelled from the spec: predict builds, for each offset day from 0 to
horizon_days − 1, the forecast point for start_date + offset with a
confidence band of ±1×MAE widened with the offset, in date order. -/
def predict (model : TrainedModel) (startDate : ℕ) (horizonDays : ℕ) :
    List ForecastPoint :=
  (List.range horizonDays).map fun off =>
    { date := startDate + off
      predicted_temperature_c := model.predictAt (startDate + off)
      confidence_lower := model.predictAt (startDate + off) -
        model.meanAbsoluteError * (1 + bandWidening * (off : ℚ))
      confidence_upper := model.predictAt (startDate + off) +
        model.meanAbsoluteError * (1 + bandWidening * (off : ℚ))
      day_offset := off }

/-! ## Per-coordinate model cache with single-flight semantics
(modelled from the spec, §5 and §9) -/

/-- Modelled from the spec: state of one cache key: either a training run is
in flight with a list of waiting callers, or a trained result is ready.  The
trained result is abstracted as the rational payload callers receive. -/
inductive CacheEntry where
  | inProgress (waiters : List ℕ)
  | ready (value : ℚ)
deriving DecidableEq, Repr

/-- Modelled from the spec: observable state of the cache for one key,
instrumented with the number of training computations started and the list
of (caller, received value) deliveries. -/
structure SingleFlightState where
  entry : Option CacheEntry
  trainCount : ℕ
  delivered : List (ℕ × ℚ)
deriving DecidableEq, Repr

/-- Empty cache: no entry, no training started, nothing delivered. -/
def initialCache : SingleFlightState :=
  { entry := none, trainCount := 0, delivered := [] }

/-- Modelled from the spec: events at one cache key: a caller's request
arrives, or the in-flight training completes with a value. -/
inductive CacheEvent where
  | arrive (caller : ℕ)
  | complete (value : ℚ)
deriving DecidableEq, Repr

/-- Modelled from the spec: single-flight transition function.  The first
arrival on an empty key starts the one training run; later arrivals join the
waiter list; arrivals on a ready entry are served from the cache; completion
delivers the single computed value to every waiter. -/
def cacheStep (s : SingleFlightState) : CacheEvent → SingleFlightState
  | CacheEvent.arrive c =>
    match s.entry with
    | none =>
        { s with entry := some (CacheEntry.inProgress [c])
                 trainCount := s.trainCount + 1 }
    | some (CacheEntry.inProgress ws) =>
        { s with entry := some (CacheEntry.inProgress (c :: ws)) }
    | some (CacheEntry.ready v) =>
        { s with delivered := (c, v) :: s.delivered }
  | CacheEvent.complete v =>
    match s.entry with
    | some (CacheEntry.inProgress ws) =>
        { entry := some (CacheEntry.ready v)
          trainCount := s.trainCount
          delivered := ws.map (fun c => (c, v)) ++ s.delivered }
    | _ => s

/-- Run a sequence of events against the empty cache. -/
def runCache (events : List CacheEvent) : SingleFlightState :=
  events.foldl cacheStep initialCache

/-! ## Frontend logic, translated from the App source embedded in
CHART_AND_THEME_FEATURES.md -/

/-- Map position, from the Position usage in the frontend source. -/
structure LatLng where
  lat : ℚ
  lng : ℚ
deriving DecidableEq, Repr

/-- Calendar date as the frontend sees it after parsing the date string:
`month0` is the 0-indexed month returned by getMonth(), `dayOfMonth` is
getDate(), `year` is getFullYear(). -/
structure JsDate where
  year : ℤ
  month0 : ℕ
  dayOfMonth : ℕ
deriving DecidableEq, Repr

/-- Body of the POST /api/analyze request, from handleAnalysis. -/
structure AnalyzeRequestBody where
  latitude : ℚ
  longitude : ℚ
  month : ℕ
  day : ℕ
deriving DecidableEq, Repr

/-- From handleAnalysis (historical mode) in the source: the request body is
built from the position and from month = getMonth() + 1 and day = getDate()
of the selected date; the year is never read. -/
def historicalRequestBody (position : LatLng) (selectedDate : JsDate) :
    AnalyzeRequestBody :=
  { latitude := position.lat
    longitude := position.lng
    month := selectedDate.month0 + 1
    day := selectedDate.dayOfMonth }

/-- RecentSearch entries, from the RecentSearch interface in the source. -/
structure RecentSearch where
  id : String
  name : String
  position : LatLng
  timestamp : ℕ
deriving DecidableEq, Repr

/-- From addToRecentSearches in the source: an existing entry is kept next
to a newly added position exactly when its latitude or longitude differs by
more than 0.01 degrees. -/
def keepAgainst (s : RecentSearch) (p : LatLng) : Bool :=
  decide (1 / 100 < |s.position.lat - p.lat|) ||
    decide (1 / 100 < |s.position.lng - p.lng|)

/-- From addToRecentSearches in the source: prepend the new entry (with
Date.now() used for both id and timestamp), drop near-duplicate existing
entries, and keep only the 5 most recent. -/
def addToRecentSearches (recent : List RecentSearch) (position : LatLng)
    (name : String) (now : ℕ) : List RecentSearch :=
  (({ id := toString now, name := name, position := position,
      timestamp := now } : RecentSearch) ::
    recent.filter (fun s => keepAgainst s position)).take 5

/-- From clearRecentSearches in the source: the list becomes empty. -/
def clearRecentSearches : List RecentSearch := []

/-- One user-level operation on the recent-searches state. -/
inductive SearchOp where
  | add (position : LatLng) (name : String) (now : ℕ)
  | clear
deriving DecidableEq, Repr

/-- Apply one operation to the recent-searches list. -/
def applySearchOp (recent : List RecentSearch) : SearchOp → List RecentSearch
  | SearchOp.add position name now => addToRecentSearches recent position name now
  | SearchOp.clear => clearRecentSearches

/-- Run a sequence of operations from the initial (empty) state of the
recentSearches useState hook. -/
def runSearchOps (ops : List SearchOp) : List RecentSearch :=
  ops.foldl applySearchOp []

/-- Two positions are near-duplicates when both coordinates are within 0.01
degrees of each other. -/
def nearPos (a b : LatLng) : Prop :=
  |a.lat - b.lat| ≤ 1 / 100 ∧ |a.lng - b.lng| ≤ 1 / 100

/-- Invariant the recent-searches list maintains. -/
def searchInvariant (l : List RecentSearch) : Prop :=
  l.length ≤ 5 ∧ l.Pairwise (fun a b => ¬ nearPos a.position b.position)

/-! ## Supporting lemmas for the claim theorems -/

theorem exceedProbability_bounds (xs : List ℚ) (t : ℚ) (h : xs ≠ []) :
    0 ≤ exceedProbability xs t ∧ exceedProbability xs t ≤ 100 := by
  unfold exceedProbability exceedCount
  exact ratio_percentage_bounds (List.length_filter_le _ _) (List.length_pos.mpr h)

theorem belowEqProbability_bounds (xs : List ℚ) (t : ℚ) (h : xs ≠ []) :
    0 ≤ belowEqProbability xs t ∧ belowEqProbability xs t ≤ 100 := by
  unfold belowEqProbability belowEqCount
  exact ratio_percentage_bounds (List.length_filter_le _ _) (List.length_pos.mpr h)

theorem roundTo1_exceed_bounds (xs : List ℚ) (t : ℚ) (h : xs ≠ []) :
    0 ≤ roundTo1 (exceedProbability xs t) ∧
      roundTo1 (exceedProbability xs t) ≤ 100 := by
  obtain ⟨h0, h1⟩ := exceedProbability_bounds xs t h
  exact roundTo1_bounds h0 h1

theorem roundTo1_belowEq_bounds (xs : List ℚ) (t : ℚ) (h : xs ≠ []) :
    0 ≤ roundTo1 (belowEqProbability xs t) ∧
      roundTo1 (belowEqProbability xs t) ≤ 100 := by
  obtain ⟨h0, h1⟩ := belowEqProbability_bounds xs t h
  exact roundTo1_bounds h0 h1

/-! ## Claim theorems -/

/-- C1: for every non-degenerate sample (at least two distinct values)
accepted by the Statistics Engine, the 10th-percentile threshold is at most
the computed median, which is at most the 90th-percentile threshold, where
percentiles are computed by linear interpolation between order statistics. -/
theorem percentile_thresholds_ordered (xs : List ℚ) (a b : ℚ)
    (ha : a ∈ xs) (hb : b ∈ xs) (hab : a ≠ b) :
    pThreshold xs 10 ≤ medianOf xs ∧ medianOf xs ≤ pThreshold xs 90 := by
  have hn : 1 ≤ xs.length := List.length_pos.mpr (List.ne_nil_of_mem ha)
  have hs := sortedSample_sorted xs
  have hlen : 1 ≤ (sortedSample xs).length := by
    rw [sortedSample_length]; exact hn
  rw [medianOf_eq_pThreshold xs hn]
  unfold pThreshold
  constructor
  · exact interpolate_mono hs hlen (by norm_num) (by norm_num) (by norm_num)
  · exact interpolate_mono hs hlen (by norm_num) (by norm_num) (by norm_num)

theorem percentile_thresholds_ordered_witness :
    pThreshold [1, 2] 10 ≤ medianOf [1, 2] ∧
      medianOf [1, 2] ≤ pThreshold [1, 2] 90 :=
  percentile_thresholds_ordered [1, 2] 1 2 (by decide) (by decide) (by decide)

/-- C2: the "very_hot" exceedance probability (years with value at or above
the 90th-percentile threshold, ties exceeding) plus the percentage of years
strictly below that threshold is exactly 100%: the two counts partition the
sample with no year counted twice and none uncounted. -/
theorem very_hot_accounting_consistent (xs : List ℚ) (h : xs ≠ []) :
    exceedCount xs (pThreshold xs 90) + belowCount xs (pThreshold xs 90) =
      xs.length ∧
    exceedProbability xs (pThreshold xs 90) +
      strictlyBelowPercentage xs (pThreshold xs 90) = 100 := by
  have hcount := exceedCount_add_belowCount xs (pThreshold xs 90)
  refine ⟨hcount, ?_⟩
  have hn : (0 : ℚ) < (xs.length : ℚ) := by
    exact_mod_cast List.length_pos.mpr h
  have hsum : ((exceedCount xs (pThreshold xs 90) : ℕ) : ℚ) +
      ((belowCount xs (pThreshold xs 90) : ℕ) : ℚ) = (xs.length : ℚ) := by
    exact_mod_cast hcount
  unfold exceedProbability strictlyBelowPercentage
  rw [div_add_div_same, div_eq_iff (ne_of_gt hn)]
  linarith

theorem very_hot_accounting_consistent_witness :
    exceedCount [1, 2, 3] (pThreshold [1, 2, 3] 90) +
        belowCount [1, 2, 3] (pThreshold [1, 2, 3] 90) =
      ([1, 2, 3] : List ℚ).length ∧
    exceedProbability [1, 2, 3] (pThreshold [1, 2, 3] 90) +
      strictlyBelowPercentage [1, 2, 3] (pThreshold [1, 2, 3] 90) = 100 :=
  very_hot_accounting_consistent [1, 2, 3] (by decide)

/-- C3: when all sample values are identical, every percentile threshold the
Statistics Engine returns equals that common value (as do mean, median, min
and max) and every exceedance probability is exactly 0 or 100; every
quantity is a total rational-valued computation, so no division by zero or
NaN can reach the API response. -/
theorem constant_sample_collapses (xs : List ℚ) (c : ℚ) (hne : xs ≠ [])
    (hc : ∀ v ∈ xs, v = c) (dateAnalyzed yearsOfData : String) :
    (analyzeTemperature xs dateAnalyzed yearsOfData).very_hot_threshold = c ∧
    (analyzeTemperature xs dateAnalyzed yearsOfData).hot_threshold = c ∧
    (analyzeTemperature xs dateAnalyzed yearsOfData).cold_threshold = c ∧
    (analyzeTemperature xs dateAnalyzed yearsOfData).very_cold_threshold = c ∧
    (analyzeTemperature xs dateAnalyzed yearsOfData).median_temp = c ∧
    (analyzeTemperature xs dateAnalyzed yearsOfData).min_temp = c ∧
    (analyzeTemperature xs dateAnalyzed yearsOfData).max_temp = c ∧
    (analyzeTemperature xs dateAnalyzed yearsOfData).average_temp = c ∧
    ((analyzeTemperature xs dateAnalyzed yearsOfData).very_hot_probability = 0 ∨
      (analyzeTemperature xs dateAnalyzed yearsOfData).very_hot_probability = 100) ∧
    ((analyzeTemperature xs dateAnalyzed yearsOfData).hot_probability = 0 ∨
      (analyzeTemperature xs dateAnalyzed yearsOfData).hot_probability = 100) ∧
    ((analyzeTemperature xs dateAnalyzed yearsOfData).cold_probability = 0 ∨
      (analyzeTemperature xs dateAnalyzed yearsOfData).cold_probability = 100) ∧
    ((analyzeTemperature xs dateAnalyzed yearsOfData).very_cold_probability = 0 ∨
      (analyzeTemperature xs dateAnalyzed yearsOfData).very_cold_probability = 100) := by
  have hn : 1 ≤ xs.length := List.length_pos.mpr hne
  have hn' : (xs.length : ℚ) ≠ 0 := by
    have := List.length_pos.mpr hne
    positivity
  have h90 : pThreshold xs 90 = c := pThreshold_const hc hn (by norm_num)
  have h75 : pThreshold xs 75 = c := pThreshold_const hc hn (by norm_num)
  have h25 : pThreshold xs 25 = c := pThreshold_const hc hn (by norm_num)
  have h10 : pThreshold xs 10 = c := pThreshold_const hc hn (by norm_num)
  have hmed : medianOf xs = c := by
    rw [medianOf_eq_pThreshold xs hn]
    exact pThreshold_const hc hn (by norm_num)
  have hsortlen : (sortedSample xs).length = xs.length := sortedSample_length xs
  have hsorted_const : ∀ v ∈ sortedSample xs, v = c := fun v hv =>
    hc v (mem_sortedSample.mp hv)
  have hmin : minOf xs = c := by
    unfold minOf
    rw [getD_of_lt _ (by omega : 0 < (sortedSample xs).length)]
    exact hsorted_const _ (List.get_mem _ _ _)
  have hmax : maxOf xs = c := by
    unfold maxOf
    rw [getD_of_lt _ (by omega : xs.length - 1 < (sortedSample xs).length)]
    exact hsorted_const _ (List.get_mem _ _ _)
  have hmean : meanOf xs = c := by
    unfold meanOf
    rw [List.sum_eq_card_nsmul xs c hc, nsmul_eq_mul]
    field_simp
  have hex : exceedProbability xs c = 100 := exceedProbability_const hc hne
  have hbe : belowEqProbability xs c = 100 := belowEqProbability_const hc hne
  refine ⟨h90, h75, h25, h10, hmed, hmin, hmax, hmean, ?_, ?_, ?_, ?_⟩
  · right
    show roundTo1 (exceedProbability xs (pThreshold xs 90)) = 100
    rw [h90, hex, roundTo1_hundred]
  · right
    show roundTo1 (exceedProbability xs (pThreshold xs 75)) = 100
    rw [h75, hex, roundTo1_hundred]
  · right
    show roundTo1 (belowEqProbability xs (pThreshold xs 25)) = 100
    rw [h25, hbe, roundTo1_hundred]
  · right
    show roundTo1 (belowEqProbability xs (pThreshold xs 10)) = 100
    rw [h10, hbe, roundTo1_hundred]

theorem constant_sample_collapses_witness :
    (analyzeTemperature [5, 5, 5] "7/15" "1995-2023").very_hot_threshold = 5 ∧
    (analyzeTemperature [5, 5, 5] "7/15" "1995-2023").hot_threshold = 5 ∧
    (analyzeTemperature [5, 5, 5] "7/15" "1995-2023").cold_threshold = 5 ∧
    (analyzeTemperature [5, 5, 5] "7/15" "1995-2023").very_cold_threshold = 5 ∧
    (analyzeTemperature [5, 5, 5] "7/15" "1995-2023").median_temp = 5 ∧
    (analyzeTemperature [5, 5, 5] "7/15" "1995-2023").min_temp = 5 ∧
    (analyzeTemperature [5, 5, 5] "7/15" "1995-2023").max_temp = 5 ∧
    (analyzeTemperature [5, 5, 5] "7/15" "1995-2023").average_temp = 5 ∧
    ((analyzeTemperature [5, 5, 5] "7/15" "1995-2023").very_hot_probability = 0 ∨
      (analyzeTemperature [5, 5, 5] "7/15" "1995-2023").very_hot_probability = 100) ∧
    ((analyzeTemperature [5, 5, 5] "7/15" "1995-2023").hot_probability = 0 ∨
      (analyzeTemperature [5, 5, 5] "7/15" "1995-2023").hot_probability = 100) ∧
    ((analyzeTemperature [5, 5, 5] "7/15" "1995-2023").cold_probability = 0 ∨
      (analyzeTemperature [5, 5, 5] "7/15" "1995-2023").cold_probability = 100) ∧
    ((analyzeTemperature [5, 5, 5] "7/15" "1995-2023").very_cold_probability = 0 ∨
      (analyzeTemperature [5, 5, 5] "7/15" "1995-2023").very_cold_probability = 100) :=
  constant_sample_collapses [5, 5, 5] 5 (by decide) (by decide) "7/15" "1995-2023"

/-- C4: a request with latitude outside [-90,90] is answered with
InvalidRequest carrying the latitude-specific message, and the Data Source
Adapter is never invoked (the instrumentation counter stays 0). -/
theorem invalid_latitude_rejected_without_fetch
    (fetch : ℚ → ℚ → Option (List RawObservation)) (lat lng : ℚ)
    (month day : ℕ) (h : ¬(-90 ≤ lat ∧ lat ≤ 90)) :
    analyzeHistorical fetch lat lng month day =
      (Except.error (ApiError.invalidRequest
        "Invalid latitude. Must be between -90 and 90"), 0) := by
  unfold analyzeHistorical validateHistoricalRequest
  rw [if_pos h]

theorem invalid_latitude_rejected_without_fetch_witness :
    analyzeHistorical (fun _ _ => none) 140 0 7 15 =
      (Except.error (ApiError.invalidRequest
        "Invalid latitude. Must be between -90 and 90"), 0) :=
  invalid_latitude_rejected_without_fetch (fun _ _ => none) 140 0 7 15 (by decide)

/-- C5: predict with horizon_days = 7 returns exactly 7 ForecastPoints whose
dates start at the requested start date, and for any horizon the emitted
ForecastPoints are in strictly ascending date order. -/
theorem forecast_points_ordered (model : TrainedModel) (startDate : ℕ) :
    (predict model startDate 7).length = 7 ∧
    ((predict model startDate 7).map ForecastPoint.date).head? = some startDate ∧
    ∀ horizonDays : ℕ,
      ((predict model startDate horizonDays).map ForecastPoint.date).Pairwise
        (· < ·) := by
  refine ⟨?_, ?_, ?_⟩
  · simp [predict]
  · have h7 : List.range 7 = [0, 1, 2, 3, 4, 5, 6] := rfl
    simp [predict, h7]
  · intro horizonDays
    have hmap : (predict model startDate horizonDays).map ForecastPoint.date =
        (List.range horizonDays).map (fun off => startDate + off) := by
      simp [predict, List.map_map]
    rw [hmap]
    exact (List.pairwise_lt_range horizonDays).map _
      (fun a b hab => Nat.add_lt_add_left hab startDate)

/-! ### Single-flight invariant -/

/-- Either nothing has happened on this key, or exactly one training run has
been started and every delivery carries the one ready value. -/
def cacheInvariant (s : SingleFlightState) : Prop :=
  (s.entry = none ∧ s.trainCount = 0 ∧ s.delivered = []) ∨
  (∃ ws, s.entry = some (CacheEntry.inProgress ws) ∧ s.trainCount = 1 ∧
    s.delivered = []) ∨
  (∃ v, s.entry = some (CacheEntry.ready v) ∧ s.trainCount = 1 ∧
    ∀ p ∈ s.delivered, p.2 = v)

theorem cacheStep_invariant (s : SingleFlightState) (e : CacheEvent)
    (h : cacheInvariant s) : cacheInvariant (cacheStep s e) := by
  obtain ⟨ent, tc, del⟩ := s
  cases e with
  | arrive c =>
    rcases h with ⟨h1, h2, h3⟩ | ⟨ws, h1, h2, h3⟩ | ⟨v, h1, h2, h4⟩
    · simp only at h1 h2 h3
      subst h1; subst h2; subst h3
      right; left
      exact ⟨[c], rfl, rfl, rfl⟩
    · simp only at h1 h2 h3
      subst h1; subst h2; subst h3
      right; left
      exact ⟨c :: ws, rfl, rfl, rfl⟩
    · simp only at h1 h2 h4
      subst h1; subst h2
      right; right
      refine ⟨v, rfl, rfl, ?_⟩
      intro pr hpr
      rcases List.mem_cons.mp hpr with hh | hh
      · rw [hh]
      · exact h4 pr hh
  | complete v =>
    rcases h with ⟨h1, h2, h3⟩ | ⟨ws, h1, h2, h3⟩ | ⟨w, h1, h2, h4⟩
    · simp only at h1 h2 h3
      subst h1; subst h2; subst h3
      left
      exact ⟨rfl, rfl, rfl⟩
    · simp only at h1 h2 h3
      subst h1; subst h2; subst h3
      right; right
      refine ⟨v, rfl, rfl, ?_⟩
      intro pr hpr
      rcases List.mem_append.mp hpr with hh | hh
      · obtain ⟨c', _, rfl⟩ := List.mem_map.mp hh
        rfl
      · exact absurd hh (List.not_mem_nil pr)
    · simp only at h1 h2 h4
      subst h1; subst h2
      right; right
      exact ⟨w, rfl, rfl, h4⟩

theorem foldl_cache_invariant (events : List CacheEvent) :
    ∀ s : SingleFlightState, cacheInvariant s →
      cacheInvariant (events.foldl cacheStep s) := by
  induction events with
  | nil => intro s h; exact h
  | cons e l ih =>
    intro s h
    exact ih _ (cacheStep_invariant s e h)

theorem cacheStep_arrive_entry (s : SingleFlightState) (c : ℕ) :
    (cacheStep s (CacheEvent.arrive c)).entry ≠ none := by
  obtain ⟨ent, tc, del⟩ := s
  cases ent with
  | none => simp [cacheStep]
  | some ce =>
    cases ce with
    | inProgress ws => simp [cacheStep]
    | ready v => simp [cacheStep]

theorem cacheStep_entry_stays (s : SingleFlightState) (e : CacheEvent)
    (h : s.entry ≠ none) : (cacheStep s e).entry ≠ none := by
  obtain ⟨ent, tc, del⟩ := s
  cases ent with
  | none => exact absurd rfl h
  | some ce =>
    cases ce with
    | inProgress ws =>
      cases e with
      | arrive c => simp [cacheStep]
      | complete v => simp [cacheStep]
    | ready v =>
      cases e with
      | arrive c => simp [cacheStep]
      | complete w => simp [cacheStep]

theorem foldl_entry_stays (events : List CacheEvent) :
    ∀ s : SingleFlightState, s.entry ≠ none →
      (events.foldl cacheStep s).entry ≠ none := by
  induction events with
  | nil => intro s h; exact h
  | cons e l ih =>
    intro s h
    exact ih _ (cacheStep_entry_stays s e h)

/-- C6: in any sequence of cache events containing at least one request
arrival on an initially empty key, exactly one training computation is
started, and all values delivered to callers are the result of that single
computation (all deliveries agree). -/
theorem single_flight_one_training (events : List CacheEvent) (c : ℕ)
    (hc : CacheEvent.arrive c ∈ events) :
    (runCache events).trainCount = 1 ∧
    ∀ p ∈ (runCache events).delivered, ∀ q ∈ (runCache events).delivered,
      p.2 = q.2 := by
  have hinv : cacheInvariant (runCache events) :=
    foldl_cache_invariant events initialCache (Or.inl ⟨rfl, rfl, rfl⟩)
  obtain ⟨l1, l2, rfl⟩ := List.append_of_mem hc
  have hne : (runCache (l1 ++ CacheEvent.arrive c :: l2)).entry ≠ none := by
    unfold runCache
    rw [List.foldl_append, List.foldl_cons]
    exact foldl_entry_stays l2 _ (cacheStep_arrive_entry _ c)
  rcases hinv with ⟨h1, _, _⟩ | ⟨ws, h1, h2, h3⟩ | ⟨v, h1, h2, h4⟩
  · exact absurd h1 hne
  · refine ⟨h2, ?_⟩
    intro p hp q hq
    rw [h3] at hp
    exact absurd hp (List.not_mem_nil p)
  · refine ⟨h2, ?_⟩
    intro p hp q hq
    rw [h4 p hp, h4 q hq]

theorem single_flight_one_training_witness :
    (runCache [CacheEvent.arrive 1, CacheEvent.arrive 2, CacheEvent.arrive 3,
        CacheEvent.complete 21]).trainCount = 1 ∧
    ∀ p ∈ (runCache [CacheEvent.arrive 1, CacheEvent.arrive 2,
        CacheEvent.arrive 3, CacheEvent.complete 21]).delivered,
      ∀ q ∈ (runCache [CacheEvent.arrive 1, CacheEvent.arrive 2,
        CacheEvent.arrive 3, CacheEvent.complete 21]).delivered,
      p.2 = q.2 :=
  single_flight_one_training
    [CacheEvent.arrive 1, CacheEvent.arrive 2, CacheEvent.arrive 3,
      CacheEvent.complete 21] 1 (by decide)

/-- C7: the Series Validator removes exactly the individual samples that are
non-finite or out of physical range (temperature outside [-90,60] °C,
negative precipitation, negative wind speed), keeps the remaining samples in
order, and fails with InsufficientData if and only if fewer than the minimum
number of usable samples remain after this filtering. -/
theorem series_validator_filters (series : List RawObservation)
    (minCount : ℕ) :
    ((∃ e, validateSeries series minCount = Except.error e) ↔
      (series.filter usable).length < minCount) ∧
    (∀ e, validateSeries series minCount = Except.error e →
      e = ApiError.insufficientData
        "Insufficient historical data for this location and date") ∧
    (∀ kept, validateSeries series minCount = Except.ok kept →
      kept = series.filter usable) ∧
    (∀ o : RawObservation, usable o = true ↔
      ∃ t p w, o.temperature_c = NumVal.finite t ∧
        o.precipitation_mm = NumVal.finite p ∧
        o.wind_speed_ms = NumVal.finite w ∧
        -90 ≤ t ∧ t ≤ 60 ∧ 0 ≤ p ∧ 0 ≤ w) := by
  refine ⟨?_, ?_, ?_, ?_⟩
  · constructor
    · rintro ⟨e, he⟩
      by_contra hc
      unfold validateSeries at he
      rw [if_neg hc] at he
      cases he
    · intro hc
      exact ⟨_, by unfold validateSeries; rw [if_pos hc]⟩
  · intro e he
    unfold validateSeries at he
    by_cases hc : (series.filter usable).length < minCount
    · rw [if_pos hc] at he
      cases he
      rfl
    · rw [if_neg hc] at he
      cases he
  · intro kept hk
    exact validateSeries_ok_eq hk
  · intro o
    obtain ⟨t, p, w⟩ := o
    cases t with
    | notFinite => simp [usable]
    | finite tq =>
      cases p with
      | notFinite => simp [usable]
      | finite pq =>
        cases w with
        | notFinite => simp [usable]
        | finite wq =>
          simp only [usable, Bool.and_eq_true, decide_eq_true_eq]
          constructor
          · rintro ⟨⟨⟨h1, h2⟩, h3⟩, h4⟩
            exact ⟨tq, pq, wq, rfl, rfl, rfl, h1, h2, h3, h4⟩
          · rintro ⟨t', p', w', ht, hp, hw, h1, h2, h3, h4⟩
            cases ht; cases hp; cases hw
            exact ⟨⟨⟨h1, h2⟩, h3⟩, h4⟩

theorem series_validator_filters_witness :
    ([({ temperature_c := NumVal.notFinite, precipitation_mm := NumVal.finite 0,
          wind_speed_ms := NumVal.finite 3 } : RawObservation),
        { temperature_c := NumVal.finite 20, precipitation_mm := NumVal.finite 0,
          wind_speed_ms := NumVal.finite 3 },
        { temperature_c := NumVal.finite 21, precipitation_mm := NumVal.finite 1,
          wind_speed_ms := NumVal.finite 2 },
        { temperature_c := NumVal.finite 22, precipitation_mm := NumVal.finite 2,
          wind_speed_ms := NumVal.finite 1 }].filter usable).length < 5 :=
  (series_validator_filters
    [{ temperature_c := NumVal.notFinite, precipitation_mm := NumVal.finite 0,
        wind_speed_ms := NumVal.finite 3 },
      { temperature_c := NumVal.finite 20, precipitation_mm := NumVal.finite 0,
        wind_speed_ms := NumVal.finite 3 },
      { temperature_c := NumVal.finite 21, precipitation_mm := NumVal.finite 1,
        wind_speed_ms := NumVal.finite 2 },
      { temperature_c := NumVal.finite 22, precipitation_mm := NumVal.finite 2,
        wind_speed_ms := NumVal.finite 1 }] 5).1.mp
    ⟨ApiError.insufficientData
        "Insufficient historical data for this location and date", by rfl⟩

/-- C8: every successful /api/analyze response carries a temperature payload
whose shape is the sixteen-field TempStats record (the exact field list of
the claim), whose unit is "°C", and whose four probabilities are percentages
in [0,100] with one-decimal precision. -/
theorem analyze_success_payload_contract
    (fetch : ℚ → ℚ → Option (List RawObservation)) (lat lng : ℚ)
    (month day : ℕ) (resp : AnalysisResponse) (k : ℕ)
    (h : analyzeHistorical fetch lat lng month day = (Except.ok resp, k)) :
    resp.temperature.unit = "°C" ∧
    resp.temperature =
      TempStats.mk resp.temperature.average_temp resp.temperature.median_temp
        resp.temperature.min_temp resp.temperature.max_temp
        resp.temperature.data_points resp.temperature.unit
        resp.temperature.date_analyzed resp.temperature.years_of_data
        resp.temperature.very_hot_threshold
        resp.temperature.very_hot_probability resp.temperature.hot_threshold
        resp.temperature.hot_probability resp.temperature.cold_threshold
        resp.temperature.cold_probability
        resp.temperature.very_cold_threshold
        resp.temperature.very_cold_probability ∧
    (0 ≤ resp.temperature.very_hot_probability ∧
      resp.temperature.very_hot_probability ≤ 100) ∧
    (0 ≤ resp.temperature.hot_probability ∧
      resp.temperature.hot_probability ≤ 100) ∧
    (0 ≤ resp.temperature.cold_probability ∧
      resp.temperature.cold_probability ≤ 100) ∧
    (0 ≤ resp.temperature.very_cold_probability ∧
      resp.temperature.very_cold_probability ≤ 100) ∧
    (∃ m : ℤ, resp.temperature.very_hot_probability = (m : ℚ) / 10) ∧
    (∃ m : ℤ, resp.temperature.hot_probability = (m : ℚ) / 10) ∧
    (∃ m : ℤ, resp.temperature.cold_probability = (m : ℚ) / 10) ∧
    (∃ m : ℤ, resp.temperature.very_cold_probability = (m : ℚ) / 10) := by
  unfold analyzeHistorical at h
  rcases hval : validateHistoricalRequest lat lng month day with _ | e
  · rw [hval] at h
    rcases hfetch : fetch lat lng with _ | series
    · rw [hfetch] at h
      simp at h
    · rw [hfetch] at h
      dsimp only at h
      rcases hkept : validateSeries series minYearsStatistics with e | kept
      · rw [hkept] at h
        simp at h
      · rw [hkept] at h
        dsimp only at h
        have hlen := validateSeries_ok_length hkept
        have hne : kept.map obsTemp ≠ [] := by
          intro hnil
          have hlen0 := congrArg List.length hnil
          rw [List.length_map] at hlen0
          simp only [List.length_nil] at hlen0
          rw [show minYearsStatistics = 5 from rfl] at hlen
          omega
        rw [Prod.mk.injEq] at h
        obtain ⟨h1, h2⟩ := h
        rw [Except.ok.injEq] at h1
        subst h1
        exact ⟨rfl, rfl, roundTo1_exceed_bounds _ _ hne,
          roundTo1_exceed_bounds _ _ hne, roundTo1_belowEq_bounds _ _ hne,
          roundTo1_belowEq_bounds _ _ hne, ⟨_, rfl⟩, ⟨_, rfl⟩, ⟨_, rfl⟩, ⟨_, rfl⟩⟩
  · rw [hval] at h
    simp at h

/-- One usable observation used to build a concrete successful analysis. -/
def sampleObs : RawObservation :=
  { temperature_c := NumVal.finite 20
    precipitation_mm := NumVal.finite 2
    wind_speed_ms := NumVal.finite 3 }

/-- Concrete fixture series with five usable observations. -/
def sampleSeries : List RawObservation :=
  [sampleObs, sampleObs, sampleObs, sampleObs, sampleObs]

/-- A Data Source Adapter stub that always returns the fixture series. -/
def sampleFetch : ℚ → ℚ → Option (List RawObservation) :=
  fun _ _ => some sampleSeries

/-- The response the Analysis Service assembles for the fixture request. -/
def sampleResponse : AnalysisResponse :=
  { temperature :=
      analyzeTemperature ((sampleSeries.filter usable).map obsTemp)
        (toString (7 : ℕ) ++ "/" ++ toString (15 : ℕ)) "1995-2023"
    precipitation := analyzePrecipitation ((sampleSeries.filter usable).map obsPrecip)
    wind := analyzeWind ((sampleSeries.filter usable).map obsWind)
    metadata :=
      { latitude := 40
        longitude := -74
        query_date := toString (7 : ℕ) ++ "/" ++ toString (15 : ℕ)
        data_source := "NASA POWER API"
        methodology := "Percentile-based statistical analysis" } }

theorem analyze_success_payload_contract_witness :
    sampleResponse.temperature.unit = "°C" ∧
    (0 ≤ sampleResponse.temperature.very_hot_probability ∧
      sampleResponse.temperature.very_hot_probability ≤ 100) :=
  have h := analyze_success_payload_contract sampleFetch 40 (-74) 7 15
    sampleResponse 1 (by rfl)
  ⟨h.1, h.2.2.1⟩

/-- C9: handleAnalysis in historical mode reads only the month and
day-of-month of the selected date, so two selected dates differing only in
their year produce identical /api/analyze request bodies. -/
theorem historical_request_year_independent (position : LatLng)
    (d1 d2 : JsDate) (hm : d1.month0 = d2.month0)
    (hd : d1.dayOfMonth = d2.dayOfMonth) :
    historicalRequestBody position d1 = historicalRequestBody position d2 := by
  unfold historicalRequestBody
  rw [hm, hd]

theorem historical_request_year_independent_witness :
    historicalRequestBody ⟨40, -74⟩ ⟨2024, 6, 15⟩ =
      historicalRequestBody ⟨40, -74⟩ ⟨2025, 6, 15⟩ :=
  historical_request_year_independent ⟨40, -74⟩ ⟨2024, 6, 15⟩ ⟨2025, 6, 15⟩
    rfl rfl

/-! ### Recent-searches invariant lemmas -/

theorem keepAgainst_iff {s : RecentSearch} {p : LatLng} :
    keepAgainst s p = true ↔ ¬ nearPos s.position p := by
  unfold keepAgainst nearPos
  rw [Bool.or_eq_true, decide_eq_true_eq, decide_eq_true_eq, not_and_or,
    not_le, not_le]

theorem nearPos_symm {a b : LatLng} (h : nearPos a b) : nearPos b a := by
  obtain ⟨h1, h2⟩ := h
  exact ⟨by rw [abs_sub_comm]; exact h1, by rw [abs_sub_comm]; exact h2⟩

theorem searchInvariant_step (l : List RecentSearch) (op : SearchOp)
    (h : searchInvariant l) : searchInvariant (applySearchOp l op) := by
  obtain ⟨hlen, hpair⟩ := h
  cases op with
  | clear =>
    exact ⟨by simp [applySearchOp, clearRecentSearches],
      by simp [applySearchOp, clearRecentSearches]⟩
  | add position name now =>
    constructor
    · exact List.length_take_le 5 _
    · apply List.Pairwise.sublist (List.take_sublist 5 _)
      apply List.pairwise_cons.mpr
      constructor
      · intro b hb
        obtain ⟨hbmem, hbkeep⟩ := List.mem_filter.mp hb
        intro hnear
        exact (keepAgainst_iff.mp hbkeep) (nearPos_symm hnear)
      · exact hpair.sublist (List.filter_sublist _)

theorem foldl_search_invariant (ops : List SearchOp) :
    ∀ l : List RecentSearch, searchInvariant l →
      searchInvariant (ops.foldl applySearchOp l) := by
  induction ops with
  | nil => intro l h; exact h
  | cons op rest ih =>
    intro l h
    exact ih _ (searchInvariant_step l op h)

/-- C10: after any sequence of addToRecentSearches/clearRecentSearches
operations from the initial empty state, the recent-searches list has at
most 5 entries, no two entries lie within 0.01 degrees of each other in
both latitude and longitude (adding removes prior near-duplicates), and the
most recently added location is the first entry. -/
theorem recent_searches_invariant (ops : List SearchOp) :
    (runSearchOps ops).length ≤ 5 ∧
    (runSearchOps ops).Pairwise
      (fun a b => ¬ nearPos a.position b.position) ∧
    ∀ (position : LatLng) (name : String) (now : ℕ),
      (runSearchOps (ops ++ [SearchOp.add position name now])).head? =
        some { id := toString now, name := name, position := position,
               timestamp := now } := by
  have hinv : searchInvariant (runSearchOps ops) :=
    foldl_search_invariant ops [] ⟨by simp, List.Pairwise.nil⟩
  refine ⟨hinv.1, hinv.2, ?_⟩
  intro position name now
  unfold runSearchOps
  rw [List.foldl_append, List.foldl_cons, List.foldl_nil]
  show (addToRecentSearches _ position name now).head? = _
  unfold addToRecentSearches
  rw [show (5 : ℕ) = 4 + 1 from rfl, List.take_succ_cons]
  rfl
